import Mathlib

/-!
Verification development for the Moldova company / nonprofit registry crawler
(src/datasets/md/companies/parse.py). The Python source is shallowly embedded:
its string manipulation is reproduced on Lean strings via structural helpers
that mirror the Python primitives (split, replace, rsplit, strip, substring
membership), spreadsheet cells are an explicit sum type, and the side effecting
emit stream is modeled as the list of emitted records in emission order.
External collaborators of the toolkit (make_id, urljoin, country cleaning) are
modeled from their documented contracts and marked as such.
-/

set_option maxRecDepth 4000

/-! ## String primitives mirroring the Python operations -/

/-- Boolean prefix test on character lists (used to mirror substring search). -/
def isPre : List Char → List Char → Bool
  | [], _ => true
  | _ :: _, [] => false
  | p :: ps, c :: cs => p == c && isPre ps cs

/-- Substring membership on character lists: the Python operator in on str. -/
def containsSub (sub : List Char) : List Char → Bool
  | [] => isPre sub []
  | c :: cs => isPre sub (c :: cs) || containsSub sub cs

/-- Python substring test s2 in s1. -/
def strContains (s sub : String) : Bool :=
  containsSub sub.data s.data

/-- Fuel driven worker for Python str.split with a non empty separator:
scans left to right, each match is non overlapping. -/
def splitOnAuxF : Nat → List Char → List Char → List Char → List (List Char)
  | 0, _, acc, _ => [acc.reverse]
  | _ + 1, [], acc, _ => [acc.reverse]
  | fuel + 1, c :: cs, acc, sep =>
    if isPre sep (c :: cs) then
      acc.reverse :: splitOnAuxF fuel ((c :: cs).drop sep.length) [] sep
    else
      splitOnAuxF fuel cs (c :: acc) sep

/-- Python str.split(sep) for a non empty separator string. -/
def splitOnSub (s sep : String) : List String :=
  (splitOnAuxF (s.data.length + 1) s.data [] sep.data).map String.mk

/-- Python str.replace(c, "") for a single character pattern: removes every
occurrence of the character. -/
def removeChar (c : Char) (s : String) : String :=
  String.mk (s.data.filter (fun x => x ≠ c))

/-- Python str.rsplit(sep, 1) for a single character separator: splits at the
last occurrence, returning none when the separator does not occur (the Python
code catches the corresponding ValueError). -/
def rsplitChar (sep : Char) : List Char → Option (List Char × List Char)
  | [] => none
  | c :: rest =>
    match rsplitChar sep rest with
    | some (a, b) => some (c :: a, b)
    | none => if c = sep then some ([], rest) else none

/-- Python str.strip(): trims whitespace from both ends. -/
def pyStrip (s : String) : String :=
  String.mk (((s.data.dropWhile Char.isWhitespace).reverse.dropWhile
    Char.isWhitespace).reverse)

/-! ## Data model of the emitted records

followthemoney entities are modeled as flat records: a schema tag, an optional
id, and the list of properties actually added (the toolkit add method drops
null and empty values, which addProps reproduces). -/

inductive Schema
  | Company
  | LegalEntity
  | Directorship
  | Ownership
  deriving DecidableEq, Repr

structure Rec where
  schema : Schema
  id : Option String
  props : List (String × String)
  deriving DecidableEq, Repr

/-- entity.add(key, value): the toolkit drops None and empty values. -/
def addProps (ps : List (String × Option String)) : List (String × String) :=
  ps.filterMap (fun kv =>
    match kv.2 with
    | none => none
    | some s => if s = "" then none else some (kv.1, s))

/-- entity.has(key): true when at least one value was added for the key. -/
def hasProp (r : Rec) (k : String) : Bool :=
  r.props.any (fun p => p.fst == k)

/-- Modelled from the spec: make_id is an external collaborator of the toolkit.
Given a tuple of optional string parts it returns a stable unique identifier
derived deterministically from the non null, non empty parts, and null when no
part carries content. The hash itself is abstract; we model it as an explicit
encoding of the contributing parts. -/
def make_id (parts : List (Option String)) : Option String :=
  match (parts.filterMap id).filter (fun s => s ≠ "") with
  | [] => none
  | v :: vs => some (vs.foldl (fun acc x => acc ++ "." ++ x) ("mk-" ++ v))

/-- Spreadsheet cell values as seen by the row parser: None, a string, or a
stray numeric value (openpyxl delivers the malformed last row as an int). -/
inductive Cell
  | cnone
  | cstr (s : String)
  | cint (n : Int)
  deriving DecidableEq, Repr

/-- Python str(value) as used inside the f-string building the company id. -/
def cellFmt : Cell → String
  | Cell.cnone => "None"
  | Cell.cstr s => s
  | Cell.cint n => toString n

/-- A cell as an optional string part for make_id and entity.add. -/
def cellOptStr : Cell → Option String
  | Cell.cnone => none
  | Cell.cstr s => some s
  | Cell.cint n => some (toString n)

/-- Passing a cell to code that calls str.split on it: None is tolerated by
the callees, a string is used as is, and an int raises AttributeError. -/
def cellStrOrErr : Cell → Except String (Option String)
  | Cell.cnone => Except.ok none
  | Cell.cstr s => Except.ok (some s)
  | Cell.cint _ => Except.error "AttributeError: int has no split"

/-! ## parse_directors -/

/-- director.rsplit on the last open bracket, with the role cleaned the way
the source does: every close bracket removed, then stripped. none mirrors the
caught ValueError when no open bracket occurs. -/
def directorSplit (cand : String) : String × Option String :=
  match rsplitChar '[' cand.data with
  | none => (cand, none)
  | some (a, b) => (String.mk a, some (pyStrip (removeChar ']' (String.mk b))))

/-- The director name: part before the last open bracket (or the whole
candidate), stripped. -/
def directorNameOf (cand : String) : String :=
  pyStrip (directorSplit cand).1

/-- The director role: cleaned bracket suffix when present. -/
def directorRoleOf (cand : String) : Option String :=
  (directorSplit cand).2

/-- Records emitted for one candidate director string: nothing when the
stripped name is shorter than 3 characters, otherwise a LegalEntity followed
by a Directorship. -/
def directorEntry (cid cand : String) : List Rec :=
  if (directorNameOf cand).data.length < 3 then []
  else
    [ { schema := Schema.LegalEntity,
        id := make_id [some cid, some (directorNameOf cand)],
        props := addProps [("name", some (directorNameOf cand))] },
      { schema := Schema.Directorship,
        id := make_id [some "Directorship", some cid, some (directorNameOf cand),
                       directorRoleOf cand],
        props := addProps [("organization", some cid),
                           ("director", make_id [some cid, some (directorNameOf cand)]),
                           ("role", directorRoleOf cand)] } ]

/-- parse_directors: split the raw field by the two character delimiter,
process each candidate. None yields nothing. -/
def parse_directors (cid : String) : Option String → List Rec
  | none => []
  | some ds => (splitOnSub ds "],").flatMap (directorEntry cid)

/-! ## parse_founders -/

/-- founder candidate after removing every close paren, split at the last open
paren when one occurs. -/
def founderSplit (cand : String) : String × Option String :=
  match rsplitChar '(' (removeChar ')' cand).data with
  | none => (removeChar ')' cand, none)
  | some (a, b) => (String.mk a, some (String.mk b))

/-- The founder name: stripped prefix of the candidate. -/
def founderNameOf (cand : String) : String :=
  pyStrip (founderSplit cand).1

/-- The percentage suffix, when an open paren occurred (kept raw, as in the
source). -/
def founderPercOf (cand : String) : Option String :=
  (founderSplit cand).2

/-- Records emitted for one candidate founder string: a LegalEntity is built,
skipped entirely when it has no name; otherwise it is emitted together with an
Ownership whose role is the percentage. -/
def founderEntry (cid cand : String) : List Rec :=
  let found : Rec :=
    { schema := Schema.LegalEntity,
      id := make_id [some cid, some (founderNameOf cand)],
      props := addProps [("name", some (founderNameOf cand))] }
  if hasProp found "name" = false then []
  else
    [ found,
      { schema := Schema.Ownership,
        id := make_id [some "Ownership", some cid, some (founderNameOf cand)],
        props := addProps [("asset", some cid), ("owner", found.id),
                           ("role", founderPercOf cand)] } ]

/-- parse_founders: None yields nothing, a stray int is logged and skipped,
a string is split by the close paren comma delimiter. -/
def parse_founders (cid : String) : Cell → List Rec
  | Cell.cnone => []
  | Cell.cint _ => []
  | Cell.cstr fs => (splitOnSub fs "),").flatMap (founderEntry cid)

/-! ## parse_owners -/

/-- Modelled from the spec: the toolkit country normalizer used by entity.add
on the country property resolves a country like token to a known lowercase
code, dropping unknown tokens (the caller then logs a warning). A small
recognizer stands in for the full reference data. -/
def clean_country (c : String) : Option String :=
  let t := pyStrip c
  if t = "US" then some "us"
  else if t = "MD" then some "md"
  else if t = "RO" then some "ro"
  else none

/-- owner candidate after removing every close paren, split at the last open
paren when one occurs; the suffix is a country like token. -/
def ownerSplit (cand : String) : String × Option String :=
  match rsplitChar '(' (removeChar ')' cand).data with
  | none => (removeChar ')' cand, none)
  | some (a, b) => (String.mk a, some (String.mk b))

/-- The beneficial owner name. -/
def ownerNameOf (cand : String) : String :=
  pyStrip (ownerSplit cand).1

/-- The country property value actually stored: the token after cleaning. -/
def ownerCountryOf (cand : String) : Option String :=
  (ownerSplit cand).2.bind clean_country

/-- Records emitted for one candidate beneficial owner: a LegalEntity with an
optional country, skipped entirely when nameless, else emitted with an
Ownership carrying the fixed role label. -/
def ownerEntry (cid cand : String) : List Rec :=
  let bo : Rec :=
    { schema := Schema.LegalEntity,
      id := make_id [some cid, some (ownerNameOf cand)],
      props := addProps [("name", some (ownerNameOf cand)),
                         ("country", ownerCountryOf cand)] }
  if hasProp bo "name" = false then []
  else
    [ bo,
      { schema := Schema.Ownership,
        id := make_id [some "Ownership", some cid, some (ownerNameOf cand)],
        props := addProps [("asset", some cid), ("owner", bo.id),
                           ("role", some "beneficiarilor efectivi")] } ]

/-- parse_owners: None yields nothing, otherwise split by the close paren
comma delimiter. -/
def parse_owners (cid : String) : Option String → List Rec
  | none => []
  | some os => (splitOnSub os "),").flatMap (ownerEntry cid)

/-! ## parse_company -/

/-- dict.pop(key): value plus remaining mapping, KeyError when absent. -/
def pop (k : String) : List (String × Cell) → Except String (Cell × List (String × Cell))
  | [] => Except.error ("KeyError: " ++ k)
  | (k2, v) :: rest =>
    if k2 = k then Except.ok (v, rest)
    else
      match pop k rest with
      | Except.ok (v2, rest2) => Except.ok (v2, (k2, v) :: rest2)
      | Except.error e => Except.error e

/-- dict.pop(key, default). -/
def popD (k : String) (d : Cell) : List (String × Cell) → Cell × List (String × Cell)
  | [] => (d, [])
  | (k2, v) :: rest =>
    if k2 = k then (v, rest)
    else
      match popD k d rest with
      | (v2, rest2) => (v2, (k2, v) :: rest2)

/-- The company identity rule of the source: a present (non None) idno gives
the fixed prefix id, a None idno falls back to make_id over name and address. -/
def companyIdOf (idno name address : Cell) : Option String :=
  match idno with
  | Cell.cnone => make_id [cellOptStr name, cellOptStr address]
  | v => some ("oc-companies-md-" ++ cellFmt v)

/-- The Company record as assembled by parse_company. -/
def companyRec (cid : String) (idno name address inc dis form : Cell) : Rec :=
  { schema := Schema.Company,
    id := some cid,
    props := addProps [("name", cellOptStr name),
                       ("taxNumber", cellOptStr idno),
                       ("incorporationDate", cellOptStr inc),
                       ("dissolutionDate", cellOptStr dis),
                       ("jurisdiction", some "md"),
                       ("address", cellOptStr address),
                       ("legalForm", cellOptStr form)],
  }

/-- parse_company: pops the fixed columns in source order, derives the
identity, returns with no records when no identity can be built, and otherwise
yields the emission stream of the row: director records, founder records,
beneficial owner records, then the Company itself (the source emits the
company after the three sub lists). Errors model uncaught Python exceptions. -/
def parse_company (row : List (String × Cell)) : Except String (List Rec) :=
  (pop "IDNO/ Cod fiscal" row).bind fun p1 =>
  (pop "Denumirea completă" p1.2).bind fun p2 =>
  (pop "Adresa" p2.2).bind fun p3 =>
  match companyIdOf p1.1 p2.1 p3.1 with
  | none => Except.ok []
  | some companyId =>
    (pop "Data înregistrării" p3.2).bind fun p4 =>
    (pop "Data lichidării" p4.2).bind fun p5 =>
    (pop "Forma org./jurid." p5.2).bind fun p6 =>
    (pop "Lista conducătorilor" p6.2).bind fun p7 =>
    (cellStrOrErr p7.1).bind fun dirsS =>
    (pop "Lista fondatorilor" p7.2).bind fun p8 =>
    (cellStrOrErr (popD "Lista beneficiarilor efectivi" Cell.cnone p8.2).1).map
      fun ownersS =>
        parse_directors companyId dirsS ++ parse_founders companyId p8.1 ++
        parse_owners companyId ownersS ++
        [companyRec companyId p1.1 p2.1 p3.1 p4.1 p5.1 p6.1]

/-! ## get_most_recent_link -/

/-- Day count for a Gregorian date with epoch 0000-03-01, the standard civil
calendar formula; comparison and day differences of Python datetimes at
midnight coincide with comparison and differences of these numbers. -/
def days_from_civil (y m d : Nat) : Nat :=
  let y2 := if m ≤ 2 then y - 1 else y
  let era := y2 / 400
  let yoe := y2 % 400
  let mp := (m + 9) % 12
  let doy := (153 * mp + 2) / 5 + (d - 1)
  let doe := yoe * 365 + yoe / 4 - yoe / 100 + doy
  era * 146097 + doe

def isLeap (y : Nat) : Bool :=
  (y % 4 == 0 && y % 100 != 0) || y % 400 == 0

def daysInMonth (y m : Nat) : Nat :=
  if m = 2 then (if isLeap y then 29 else 28)
  else if m = 4 ∨ m = 6 ∨ m = 9 ∨ m = 11 then 30
  else 31

/-- The validation performed by datetime.strptime with format %Y.%m.%d. -/
def validDate (y m d : Nat) : Bool :=
  1 ≤ y && 1 ≤ m && m ≤ 12 && 1 ≤ d && d ≤ daysInMonth y m

/-- Numeric value of a digit sequence. -/
def toNum (cs : List Char) : Nat :=
  cs.foldl (fun acc c => acc * 10 + (c.toNat - 48)) 0

/-- The fixed shape of the date regex at one start position: four digits, a
dot, two digits, a dot, two digits. -/
def matchDateAt : List Char → Option (Nat × Nat × Nat)
  | a :: b :: c :: d :: p :: e :: f :: q :: g :: k :: _ =>
    if a.isDigit && b.isDigit && c.isDigit && d.isDigit && p == '.' &&
       e.isDigit && f.isDigit && q == '.' && g.isDigit && k.isDigit then
      some (toNum [a, b, c, d], toNum [e, f], toNum [g, k])
    else none
  | _ => none

/-- re.search of the date pattern: the leftmost start position that matches. -/
def findDate : List Char → Option (Nat × Nat × Nat)
  | [] => none
  | c :: cs =>
    match matchDateAt (c :: cs) with
    | some r => some r
    | none => findDate cs

/-- re.search of the year 2019 path pattern: the fixed prefix followed by two
digits, anywhere in the href. -/
def matches2019 : List Char → Bool
  | [] => false
  | c :: cs =>
    (isPre "resources/2019-".data (c :: cs) &&
      (match (c :: cs).drop 15 with
       | d1 :: d2 :: _ => d1.isDigit && d2.isDigit
       | _ => false)) || matches2019 cs

/-- The two hardcoded exclusions for known outdated links. -/
def isStale (href : String) : Bool :=
  strContains href "17.06.2024" || matches2019 href.data

/-- A candidate link that passed the filters, with its extracted date as a
day number. -/
structure DatedLink where
  day : Nat
  href : String
  deriving DecidableEq, Repr

/-- The filtering loop of get_most_recent_link: stale links are skipped,
undated links are warned about and skipped, dated links are validated by
strptime (an invalid date aborts with ValueError) and kept in order. -/
def collect : List String → Except String (List DatedLink)
  | [] => Except.ok []
  | href :: rest =>
    if isStale href then collect rest
    else
      match findDate href.data with
      | none => collect rest
      | some (y, m, d) =>
        if validDate y m d then
          (collect rest).map
            (fun tl => { day := days_from_civil y m d, href := href } :: tl)
        else Except.error "ValueError: invalid date for strptime"

/-- Python max with a key function: keeps the first element whose key is
maximal, updating only on a strictly greater key. -/
def pickMax (x : DatedLink) : List DatedLink → DatedLink
  | [] => x
  | y :: tl => pickMax (if y.day > x.day then y else x) tl

/-- get_most_recent_link: filter and date the candidate hrefs, fail like
Python max on an empty list, pick the most recent, and assert that it is less
than 30 days old relative to the current day number. -/
def get_most_recent_link (now : Nat) (hrefs : List String) : Except String String :=
  (collect hrefs).bind fun dated =>
    match dated with
    | [] => Except.error "ValueError: max of empty sequence"
    | x :: tl =>
      if now - 30 < (pickMax x tl).day then Except.ok (pickMax x tl).href
      else Except.error "AssertionError: link is not recent"

/-! ## read_ckan -/

/-- Modelled from the spec: urllib urljoin resolves an href against a base
URL. The cases exercised here: an empty href keeps the base, an absolute href
replaces it, a relative href is resolved against the base directory. -/
def urljoin (base href : String) : String :=
  if href = "" then base
  else if isPre "http://".data href.data || isPre "https://".data href.data then href
  else String.mk ((base.data.reverse.dropWhile (fun c => c ≠ '/')).reverse) ++ href

/-- The loop over resource item anchors: each iteration overwrites
resource_url, so the last anchor wins; None when there is no anchor. A missing
href attribute defaults to the empty string. -/
def lastResourceUrl (base : String) (anchors : List (Option String)) : Option String :=
  anchors.foldl (fun _ a => some (urljoin base (a.getD ""))) none

/-- read_ckan: fail without a dataset url; fetch the catalog page (its
resource item anchors are the second argument), resolve the last anchor, fail
when there is none; fetch the resource page (the pages function yields its
action anchors) and return the href attribute of the first action anchor,
failing when there is none. -/
def read_ckan (datasetUrl : Option String) (resAnchors : List (Option String))
    (pages : String → List (Option String)) : Except String (Option String) :=
  match datasetUrl with
  | none => Except.error "RuntimeError: No dataset url"
  | some base =>
    match lastResourceUrl base resAnchors with
    | none => Except.error "RuntimeError: No resource URL on data catalog page!"
    | some rurl =>
      match pages rurl with
      | [] => Except.error "RuntimeError: No data URL on data resource page!"
      | a :: _ => Except.ok a

/-! ## Helper definitions for the statements -/

/-- A row mapping in the column order produced by the header extraction, with
every popped column present except the optional beneficial owners column. -/
def mkRow (idno name address inc dis form dirs fnd : Cell) : List (String × Cell) :=
  [("IDNO/ Cod fiscal", idno), ("Denumirea completă", name), ("Adresa", address),
   ("Data înregistrării", inc), ("Data lichidării", dis),
   ("Forma org./jurid.", form), ("Lista conducătorilor", dirs),
   ("Lista fondatorilor", fnd)]

/-- The successful emission stream of a row (empty on error). -/
def okOut (row : List (String × Cell)) : List Rec :=
  (parse_company row).toOption.getD []

/-- Ids of the Company records in an emission stream. -/
def companyIds (l : List Rec) : List (Option String) :=
  (l.filter (fun r => decide (r.schema = Schema.Company))).map Rec.id

/-- The founder name rule exactly as the claim words it, for comparison with
the source behavior: strip one trailing close paren from the candidate, then
optionally split off a trailing percentage segment at the last open paren, and
strip whitespace. -/
def founderNameSpecWorded (cand : String) : String :=
  let c := match cand.data.reverse with
    | ')' :: rest => String.mk rest.reverse
    | _ => cand
  let n := match rsplitChar '(' c.data with
    | none => c
    | some (a, _) => String.mk a
  pyStrip n

/-- Concrete row: one director with a role, no founders. -/
def row0 : List (String × Cell) :=
  [("IDNO/ Cod fiscal", Cell.cstr "100"), ("Denumirea completă", Cell.cstr "Acme SRL"),
   ("Adresa", Cell.cstr "Chisinau"), ("Data înregistrării", Cell.cnone),
   ("Data lichidării", Cell.cnone), ("Forma org./jurid.", Cell.cstr "SRL"),
   ("Lista conducătorilor", Cell.cstr "Ana Popescu [Director]"),
   ("Lista fondatorilor", Cell.cnone)]

/-- Concrete row missing the incorporation date column (and others), with no
derivable identity. -/
def rowC10 : List (String × Cell) :=
  [("IDNO/ Cod fiscal", Cell.cnone), ("Denumirea completă", Cell.cnone),
   ("Adresa", Cell.cnone)]

/-- Concrete catalog hrefs for the recency selector examples. -/
def hrefA : String := "https://dataset.gov.md/ro/datastore/dump/reg_2025.01.15.xlsx"
def hrefB : String := "https://dataset.gov.md/ro/datastore/dump/reg_2024.07.02.xlsx"

/-- Resource page contents for the read_ckan counterexample: only the page of
the second catalog anchor holds the data link. -/
def pagesC6 : String → List (Option String) :=
  fun u => if u = "https://two.example/r2" then [some "https://two.example/data.xlsx"]
           else [some "https://two.example/other"]

/-- Constant resource page contents for the read_ckan witness. -/
def pagesW : String → List (Option String) :=
  fun _ => [some "https://d.example/data.xlsx"]

/-! ## Shared lemmas -/

theorem bind_ok {α β : Type} {e : Except String α} {f : α → Except String β} {b : β}
    (h : e.bind f = Except.ok b) : ∃ a, e = Except.ok a ∧ f a = Except.ok b := by
  cases e with
  | error e => simp [Except.bind] at h
  | ok a => exact ⟨a, rfl, h⟩

theorem map_ok {α β : Type} {e : Except String α} {f : α → β} {b : β}
    (h : e.map f = Except.ok b) : ∃ a, e = Except.ok a ∧ f a = b := by
  cases e with
  | error e => simp [Except.map] at h
  | ok a =>
    refine ⟨a, rfl, ?_⟩
    simpa [Except.map] using h

theorem pickMax_mem (x : DatedLink) (l : List DatedLink) : pickMax x l ∈ x :: l := by
  induction l generalizing x with
  | nil => simp [pickMax]
  | cons y tl ih =>
    rw [pickMax]
    by_cases hy : y.day > x.day
    · rw [if_pos hy]
      rcases List.mem_cons.mp (ih y) with h1 | h1
      · rw [h1]; exact List.mem_cons_of_mem _ (List.mem_cons_self _ _)
      · exact List.mem_cons_of_mem _ (List.mem_cons_of_mem _ h1)
    · rw [if_neg hy]
      rcases List.mem_cons.mp (ih x) with h1 | h1
      · rw [h1]; exact List.mem_cons_self _ _
      · exact List.mem_cons_of_mem _ (List.mem_cons_of_mem _ h1)

theorem pickMax_le (x : DatedLink) (l : List DatedLink) :
    ∀ y ∈ x :: l, y.day ≤ (pickMax x l).day := by
  induction l generalizing x with
  | nil => intro y hy; simp at hy; simp [pickMax, hy]
  | cons z tl ih =>
    intro y hy
    rw [pickMax]
    have hz : z.day ≤ (if z.day > x.day then z else x).day := by
      by_cases h : z.day > x.day
      · simp [if_pos h]
      · simp only [if_neg h]
        omega
    have hx : x.day ≤ (if z.day > x.day then z else x).day := by
      by_cases h : z.day > x.day
      · simp only [if_pos h]; omega
      · simp [if_neg h]
    rcases List.mem_cons.mp hy with h1 | h1
    · subst h1
      exact le_trans hx (ih _ _ (List.mem_cons_self _ _))
    · rcases List.mem_cons.mp h1 with h2 | h2
      · subst h2
        exact le_trans hz (ih _ _ (List.mem_cons_self _ _))
      · exact ih _ y (List.mem_cons_of_mem _ h2)

theorem collect_no_stale (hrefs : List String) (ds : List DatedLink)
    (h : collect hrefs = Except.ok ds) :
    ∀ dl ∈ ds, isStale dl.href = false := by
  induction hrefs generalizing ds with
  | nil =>
    simp only [collect] at h
    cases h
    simp
  | cons href rest ih =>
    rw [collect] at h
    by_cases hs : isStale href = true
    · rw [if_pos hs] at h
      exact ih ds h
    · rw [if_neg hs] at h
      split at h
      · exact ih ds h
      · split at h
        · obtain ⟨tl, htl, hcons⟩ := map_ok h
          intro dl hdl
          rw [← hcons] at hdl
          rcases List.mem_cons.mp hdl with h1 | h1
          · subst h1
            simpa using hs
          · exact ih tl htl dl h1
        · cases h

theorem directorEntry_schemas (cid cand : String) :
    ∀ r ∈ directorEntry cid cand,
      r.schema = Schema.LegalEntity ∨ r.schema = Schema.Directorship := by
  intro r hr
  rw [directorEntry] at hr
  split at hr
  · cases hr
  · simp only [List.mem_cons, List.not_mem_nil, or_false] at hr
    rcases hr with rfl | rfl
    · left; rfl
    · right; rfl

theorem founderEntry_schemas (cid cand : String) :
    ∀ r ∈ founderEntry cid cand,
      r.schema = Schema.LegalEntity ∨ r.schema = Schema.Ownership := by
  intro r hr
  simp only [founderEntry] at hr
  split at hr
  · cases hr
  · simp only [List.mem_cons, List.not_mem_nil, or_false] at hr
    rcases hr with rfl | rfl
    · left; rfl
    · right; rfl

theorem ownerEntry_schemas (cid cand : String) :
    ∀ r ∈ ownerEntry cid cand,
      r.schema = Schema.LegalEntity ∨ r.schema = Schema.Ownership := by
  intro r hr
  simp only [ownerEntry] at hr
  split at hr
  · cases hr
  · simp only [List.mem_cons, List.not_mem_nil, or_false] at hr
    rcases hr with rfl | rfl
    · left; rfl
    · right; rfl

theorem parse_directors_no_company (cid : String) (d : Option String) :
    ∀ r ∈ parse_directors cid d, r.schema ≠ Schema.Company := by
  intro r hr
  cases d with
  | none => simp [parse_directors] at hr
  | some ds =>
    rw [parse_directors] at hr
    obtain ⟨cand, _, hc⟩ := List.mem_flatMap.mp hr
    rcases directorEntry_schemas cid cand r hc with h | h <;> simp [h]

theorem parse_founders_no_company (cid : String) (c : Cell) :
    ∀ r ∈ parse_founders cid c, r.schema ≠ Schema.Company := by
  intro r hr
  cases c with
  | cnone => simp [parse_founders] at hr
  | cint n => simp [parse_founders] at hr
  | cstr fs =>
    rw [parse_founders] at hr
    obtain ⟨cand, _, hc⟩ := List.mem_flatMap.mp hr
    rcases founderEntry_schemas cid cand r hc with h | h <;> simp [h]

theorem parse_owners_no_company (cid : String) (d : Option String) :
    ∀ r ∈ parse_owners cid d, r.schema ≠ Schema.Company := by
  intro r hr
  cases d with
  | none => simp [parse_owners] at hr
  | some os =>
    rw [parse_owners] at hr
    obtain ⟨cand, _, hc⟩ := List.mem_flatMap.mp hr
    rcases ownerEntry_schemas cid cand r hc with h | h <;> simp [h]

theorem cellStrOrErr_cnone : cellStrOrErr Cell.cnone = Except.ok none := rfl

theorem parse_company_mkRow_eq (idno name address inc dis form dirs fnd : Cell) :
    parse_company (mkRow idno name address inc dis form dirs fnd) =
      match companyIdOf idno name address with
      | none => Except.ok []
      | some cid =>
        match cellStrOrErr dirs with
        | Except.error e => Except.error e
        | Except.ok dirsS =>
          Except.ok (parse_directors cid dirsS ++ parse_founders cid fnd ++
                     parse_owners cid none ++
                     [companyRec cid idno name address inc dis form]) := by
  rcases hcid : companyIdOf idno name address with _ | cid <;>
    rcases hd : cellStrOrErr dirs with e | dirsS <;>
      simp [parse_company, mkRow, pop, popD, hcid, hd, Except.bind, Except.map,
            cellStrOrErr_cnone]

theorem parse_company_mkRow_ids (idno name address inc dis form dirs fnd : Cell)
    (l : List Rec)
    (h : parse_company (mkRow idno name address inc dis form dirs fnd) = Except.ok l) :
    (companyIdOf idno name address = none ∧ l = []) ∨
    (∃ cid, companyIdOf idno name address = some cid ∧ companyIds l = [some cid]) := by
  rw [parse_company_mkRow_eq] at h
  rcases hcid : companyIdOf idno name address with _ | cid
  · rw [hcid] at h
    exact Or.inl ⟨rfl, (Except.ok.inj h).symm⟩
  · rw [hcid] at h
    rcases hd : cellStrOrErr dirs with e | dirsS
    · rw [hd] at h; cases h
    · rw [hd] at h
      refine Or.inr ⟨cid, rfl, ?_⟩
      have hl := Except.ok.inj h
      subst hl
      have h1 : (parse_directors cid dirsS).filter
          (fun r => decide (r.schema = Schema.Company)) = [] := by
        rw [List.filter_eq_nil_iff]
        intro r hr
        simpa using parse_directors_no_company cid dirsS r hr
      have h2 : (parse_founders cid fnd).filter
          (fun r => decide (r.schema = Schema.Company)) = [] := by
        rw [List.filter_eq_nil_iff]
        intro r hr
        simpa using parse_founders_no_company cid fnd r hr
      have h3 : (parse_owners cid none).filter
          (fun r => decide (r.schema = Schema.Company)) = [] := by
        rw [List.filter_eq_nil_iff]
        intro r hr
        simpa using parse_owners_no_company cid none r hr
      simp only [companyIds, List.filter_append, h1, h2, h3, List.nil_append]
      simp [companyRec]

/-- C2 counterexample: on a concrete row with one director, the emission
stream is LegalEntity, Directorship, Company: the Company record comes after
the Directorship derived from the same row, not before it. -/
theorem C2_company_emitted_last :
    (parse_company row0).toOption.map (List.map Rec.schema) =
      some [Schema.LegalEntity, Schema.Directorship, Schema.Company] := by decide

/-- C2 (amended): for every company row, in a successful emission stream the
Company record is the last element, after every LegalEntity, Directorship and
Ownership record derived from the same row (the stream is empty when no
identity could be derived). -/
theorem C2_company_record_position (row : List (String × Cell)) (l : List Rec)
    (h : parse_company row = Except.ok l) :
    l = [] ∨ ∃ pre c, l = pre ++ [c] ∧ c.schema = Schema.Company ∧
      ∀ r ∈ pre, r.schema ≠ Schema.Company := by
  rw [parse_company] at h
  obtain ⟨p1, h1, h⟩ := bind_ok h
  obtain ⟨p2, h2, h⟩ := bind_ok h
  obtain ⟨p3, h3, h⟩ := bind_ok h
  rcases hcid : companyIdOf p1.1 p2.1 p3.1 with _ | cid
  · rw [hcid] at h
    exact Or.inl (Except.ok.inj h).symm
  · rw [hcid] at h
    obtain ⟨p4, h4, h⟩ := bind_ok h
    obtain ⟨p5, h5, h⟩ := bind_ok h
    obtain ⟨p6, h6, h⟩ := bind_ok h
    obtain ⟨p7, h7, h⟩ := bind_ok h
    obtain ⟨dirsS, hd, h⟩ := bind_ok h
    obtain ⟨p8, h8, h⟩ := bind_ok h
    obtain ⟨ownersS, ho, h⟩ := map_ok h
    subst h
    right
    refine ⟨parse_directors cid dirsS ++
             (parse_founders cid p8.1 ++ parse_owners cid ownersS),
           companyRec cid p1.1 p2.1 p3.1 p4.1 p5.1 p6.1, by simp, rfl, ?_⟩
    intro r hr
    simp only [List.mem_append] at hr
    rcases hr with hr | hr | hr
    · exact parse_directors_no_company cid dirsS r hr
    · exact parse_founders_no_company cid p8.1 r hr
    · exact parse_owners_no_company cid ownersS r hr

/-- C2 witness: the amended statement instantiated on the concrete row. -/
theorem C2_company_record_position_witness :
    okOut row0 = [] ∨ ∃ pre c, okOut row0 = pre ++ [c] ∧
      c.schema = Schema.Company ∧ ∀ r ∈ pre, r.schema ≠ Schema.Company :=
  C2_company_record_position row0 (okOut row0) (by rfl)

/-- C3: a present idno always yields the fixed prefix id, independent of name
and address; a null idno yields the deterministic make_id over name and
address, so identical name and address give identical generated ids. -/
theorem C3_company_identity
    (idno name address inc dis form dirs fnd inc2 dis2 form2 dirs2 fnd2 : Cell)
    (lA lB lC : List Rec) :
    (idno ≠ Cell.cnone →
      parse_company (mkRow idno name address inc dis form dirs fnd) = Except.ok lA →
      companyIds lA = [some ("oc-companies-md-" ++ cellFmt idno)]) ∧
    (parse_company (mkRow Cell.cnone name address inc dis form dirs fnd) = Except.ok lB →
      lB ≠ [] →
      companyIds lB = [make_id [cellOptStr name, cellOptStr address]]) ∧
    (parse_company (mkRow Cell.cnone name address inc dis form dirs fnd) = Except.ok lB →
      parse_company (mkRow Cell.cnone name address inc2 dis2 form2 dirs2 fnd2) = Except.ok lC →
      companyIds lB = companyIds lC) := by
  refine ⟨?_, ?_, ?_⟩
  · intro hi h
    rcases parse_company_mkRow_ids _ _ _ _ _ _ _ _ _ h with ⟨hnone, _⟩ | ⟨cid, hcid, hids⟩
    · exfalso
      cases idno with
      | cnone => exact hi rfl
      | cstr s => simp [companyIdOf] at hnone
      | cint n => simp [companyIdOf] at hnone
    · cases idno with
      | cnone => exact absurd rfl hi
      | cstr s =>
        simp only [companyIdOf] at hcid
        rw [hids, ← Option.some.inj hcid]
      | cint n =>
        simp only [companyIdOf] at hcid
        rw [hids, ← Option.some.inj hcid]
  · intro h hne
    rcases parse_company_mkRow_ids _ _ _ _ _ _ _ _ _ h with ⟨_, hl⟩ | ⟨cid, hcid, hids⟩
    · exact absurd hl hne
    · simp only [companyIdOf] at hcid
      rw [hids, ← hcid]
  · intro h h2
    rcases parse_company_mkRow_ids _ _ _ _ _ _ _ _ _ h with ⟨hnone, hl⟩ | ⟨cid, hcid, hids⟩
    · rcases parse_company_mkRow_ids _ _ _ _ _ _ _ _ _ h2 with ⟨_, hl2⟩ | ⟨cid2, hcid2, _⟩
      · rw [hl, hl2]
      · rw [hnone] at hcid2; cases hcid2
    · rcases parse_company_mkRow_ids _ _ _ _ _ _ _ _ _ h2 with ⟨hnone2, _⟩ | ⟨cid2, hcid2, hids2⟩
      · rw [hnone2] at hcid; cases hcid
      · rw [hids, hids2]
        rw [hcid] at hcid2
        rw [Option.some.inj hcid2]

/-- C3 witness: the identity rule instantiated on concrete rows. -/
theorem C3_company_identity_witness :
    companyIds (okOut (mkRow (Cell.cstr "1003600000000") (Cell.cstr "Alfa")
        (Cell.cstr "Str Unu") Cell.cnone Cell.cnone Cell.cnone Cell.cnone Cell.cnone)) =
      [some ("oc-companies-md-" ++ cellFmt (Cell.cstr "1003600000000"))] ∧
    companyIds (okOut (mkRow Cell.cnone (Cell.cstr "Alfa") (Cell.cstr "Str Unu")
        Cell.cnone Cell.cnone Cell.cnone Cell.cnone Cell.cnone)) =
      [make_id [cellOptStr (Cell.cstr "Alfa"), cellOptStr (Cell.cstr "Str Unu")]] ∧
    companyIds (okOut (mkRow Cell.cnone (Cell.cstr "Alfa") (Cell.cstr "Str Unu")
        Cell.cnone Cell.cnone Cell.cnone Cell.cnone Cell.cnone)) =
      companyIds (okOut (mkRow Cell.cnone (Cell.cstr "Alfa") (Cell.cstr "Str Unu")
        (Cell.cstr "2020-01-01") Cell.cnone (Cell.cstr "SRL") Cell.cnone Cell.cnone)) := by
  have h := C3_company_identity (Cell.cstr "1003600000000") (Cell.cstr "Alfa")
    (Cell.cstr "Str Unu") Cell.cnone Cell.cnone Cell.cnone Cell.cnone Cell.cnone
    (Cell.cstr "2020-01-01") Cell.cnone (Cell.cstr "SRL") Cell.cnone Cell.cnone
    (okOut (mkRow (Cell.cstr "1003600000000") (Cell.cstr "Alfa") (Cell.cstr "Str Unu")
      Cell.cnone Cell.cnone Cell.cnone Cell.cnone Cell.cnone))
    (okOut (mkRow Cell.cnone (Cell.cstr "Alfa") (Cell.cstr "Str Unu")
      Cell.cnone Cell.cnone Cell.cnone Cell.cnone Cell.cnone))
    (okOut (mkRow Cell.cnone (Cell.cstr "Alfa") (Cell.cstr "Str Unu")
      (Cell.cstr "2020-01-01") Cell.cnone (Cell.cstr "SRL") Cell.cnone Cell.cnone))
  exact ⟨h.1 (by decide) (by rfl), h.2.1 (by rfl) (by decide), h.2.2 (by rfl) (by rfl)⟩

/-- C4: a row with null idno whose make_id over name and address is null is
skipped with no emissions and no exception. -/
theorem C4_identity_failure_skips_row (name address inc dis form dirs fnd : Cell)
    (h : make_id [cellOptStr name, cellOptStr address] = none) :
    parse_company (mkRow Cell.cnone name address inc dis form dirs fnd) =
      Except.ok [] := by
  rw [parse_company_mkRow_eq]
  simp [companyIdOf, h]

/-- C4 witness: a fully empty identity row is skipped. -/
theorem C4_identity_failure_skips_row_witness :
    make_id [cellOptStr Cell.cnone, cellOptStr Cell.cnone] = none ∧
    parse_company (mkRow Cell.cnone Cell.cnone Cell.cnone Cell.cnone Cell.cnone
      Cell.cnone Cell.cnone Cell.cnone) = Except.ok [] :=
  ⟨by decide, C4_identity_failure_skips_row Cell.cnone Cell.cnone Cell.cnone
      Cell.cnone Cell.cnone Cell.cnone Cell.cnone (by decide)⟩

/-- C10 counterexample: a concrete row that lacks the incorporation date
column (and the other late columns) but has no derivable identity is skipped
with Except.ok and no KeyError, contradicting the claim that lacking any
non-optional popped column raises. -/
theorem C10_missing_column_no_raise : parse_company rowC10 = Except.ok [] := by rfl

/-- C10 (amended): the beneficial owners column is optional and its absence
yields no owner records; a row lacking the tax id, name or address column
always raises KeyError; a row lacking the incorporation date, dissolution
date, legal form, directors or founders column raises KeyError provided an
identity was derived (and, for the founders column, the directors cell was
splittable); rows with no derivable identity return before reaching the later
columns. -/
theorem C10_column_requirements
    (idno name address inc dis form dirs fnd : Cell) (cid : String)
    (dirsS : Option String)
    (hcid : companyIdOf idno name address = some cid)
    (hdirs : cellStrOrErr dirs = Except.ok dirsS) :
    (parse_company (mkRow idno name address inc dis form dirs fnd) =
       Except.ok (parse_directors cid dirsS ++ parse_founders cid fnd ++
                  parse_owners cid none ++
                  [companyRec cid idno name address inc dis form]) ∧
     parse_owners cid none = []) ∧
    (parse_company [("Denumirea completă", name), ("Adresa", address),
        ("Data înregistrării", inc), ("Data lichidării", dis),
        ("Forma org./jurid.", form), ("Lista conducătorilor", dirs),
        ("Lista fondatorilor", fnd)] =
      Except.error "KeyError: IDNO/ Cod fiscal") ∧
    (parse_company [("IDNO/ Cod fiscal", idno), ("Adresa", address),
        ("Data înregistrării", inc), ("Data lichidării", dis),
        ("Forma org./jurid.", form), ("Lista conducătorilor", dirs),
        ("Lista fondatorilor", fnd)] =
      Except.error "KeyError: Denumirea completă") ∧
    (parse_company [("IDNO/ Cod fiscal", idno), ("Denumirea completă", name),
        ("Data înregistrării", inc), ("Data lichidării", dis),
        ("Forma org./jurid.", form), ("Lista conducătorilor", dirs),
        ("Lista fondatorilor", fnd)] =
      Except.error "KeyError: Adresa") ∧
    (parse_company [("IDNO/ Cod fiscal", idno), ("Denumirea completă", name),
        ("Adresa", address), ("Data lichidării", dis),
        ("Forma org./jurid.", form), ("Lista conducătorilor", dirs),
        ("Lista fondatorilor", fnd)] =
      Except.error "KeyError: Data înregistrării") ∧
    (parse_company [("IDNO/ Cod fiscal", idno), ("Denumirea completă", name),
        ("Adresa", address), ("Data înregistrării", inc),
        ("Forma org./jurid.", form), ("Lista conducătorilor", dirs),
        ("Lista fondatorilor", fnd)] =
      Except.error "KeyError: Data lichidării") ∧
    (parse_company [("IDNO/ Cod fiscal", idno), ("Denumirea completă", name),
        ("Adresa", address), ("Data înregistrării", inc), ("Data lichidării", dis),
        ("Lista conducătorilor", dirs), ("Lista fondatorilor", fnd)] =
      Except.error "KeyError: Forma org./jurid.") ∧
    (parse_company [("IDNO/ Cod fiscal", idno), ("Denumirea completă", name),
        ("Adresa", address), ("Data înregistrării", inc), ("Data lichidării", dis),
        ("Forma org./jurid.", form), ("Lista fondatorilor", fnd)] =
      Except.error "KeyError: Lista conducătorilor") ∧
    (parse_company [("IDNO/ Cod fiscal", idno), ("Denumirea completă", name),
        ("Adresa", address), ("Data înregistrării", inc), ("Data lichidării", dis),
        ("Forma org./jurid.", form), ("Lista conducătorilor", dirs)] =
      Except.error "KeyError: Lista fondatorilor") := by
  refine ⟨⟨?_, rfl⟩, ?_, ?_, ?_, ?_, ?_, ?_, ?_, ?_⟩ <;>
    simp [parse_company, parse_company_mkRow_eq, mkRow, pop, popD, Except.bind,
          Except.map, hcid, hdirs, cellStrOrErr_cnone]

/-- C10 witness: the amended statement instantiated on concrete cells. -/
theorem C10_column_requirements_witness :
    companyIdOf (Cell.cstr "1") Cell.cnone Cell.cnone = some "oc-companies-md-1" ∧
    cellStrOrErr Cell.cnone = Except.ok none ∧
    parse_company [("IDNO/ Cod fiscal", Cell.cstr "1"),
        ("Denumirea completă", Cell.cnone), ("Adresa", Cell.cnone),
        ("Data lichidării", Cell.cnone), ("Forma org./jurid.", Cell.cnone),
        ("Lista conducătorilor", Cell.cnone), ("Lista fondatorilor", Cell.cnone)] =
      Except.error "KeyError: Data înregistrării" ∧
    parse_company (mkRow (Cell.cstr "1") Cell.cnone Cell.cnone Cell.cnone
        Cell.cnone Cell.cnone Cell.cnone Cell.cnone) =
      Except.ok (parse_directors "oc-companies-md-1" none ++
                 parse_founders "oc-companies-md-1" Cell.cnone ++
                 parse_owners "oc-companies-md-1" none ++
                 [companyRec "oc-companies-md-1" (Cell.cstr "1") Cell.cnone
                    Cell.cnone Cell.cnone Cell.cnone Cell.cnone]) := by
  have h := C10_column_requirements (Cell.cstr "1") Cell.cnone Cell.cnone
    Cell.cnone Cell.cnone Cell.cnone Cell.cnone Cell.cnone "oc-companies-md-1"
    none (by decide) (by rfl)
  exact ⟨by decide, by rfl, h.2.2.2.2.1, h.1.1⟩

theorem rsplitChar_none (sep : Char) (l : List Char) (h : ∀ c ∈ l, c ≠ sep) :
    rsplitChar sep l = none := by
  induction l with
  | nil => rfl
  | cons c cs ih =>
    rw [rsplitChar]
    rw [ih (fun x hx => h x (List.mem_cons_of_mem c hx))]
    exact if_neg (h c (List.mem_cons_self c cs))

/-- C7 counterexample: on a candidate with an interior close paren the source
removes every close paren (emitting the name A B), while the claim wording,
strip the single trailing close paren, would yield the different name. -/
theorem C7_inner_paren_example :
    ((parse_founders "c7x" (Cell.cstr "A) B (50%)")).map
        (fun r => List.lookup "name" r.props) = [some "A B", none]) ∧
    founderNameSpecWorded "A) B (50%)" = "A) B" ∧
    ("A B" : String) ≠ "A) B" := by decide

/-- C7 (amended): parse_founders splits by the close paren comma delimiter,
removes every close paren from each candidate, optionally splits off the
trailing percentage at the last open paren, trims, skips empty names, and
emits a LegalEntity plus an Ownership whose role is the percentage string or
absent; the spec example yields two Ownership records with role 50 percent. -/
theorem C7_founders_parsing (cid cand : String) :
    ((parse_founders "c7" (Cell.cstr "SRL Alfa (50%),SRL Beta (50%)")).map
        (fun r => (r.schema, List.lookup "name" r.props, List.lookup "role" r.props)) =
      [(Schema.LegalEntity, some "SRL Alfa", none),
       (Schema.Ownership, none, some "50%"),
       (Schema.LegalEntity, some "SRL Beta", none),
       (Schema.Ownership, none, some "50%")]) ∧
    (∀ c2 fs, parse_founders c2 (Cell.cstr fs) =
        (splitOnSub fs "),").flatMap (founderEntry c2)) ∧
    (founderNameOf cand = "" → founderEntry cid cand = []) ∧
    (founderNameOf cand ≠ "" →
      (founderEntry cid cand).map Rec.schema =
        [Schema.LegalEntity, Schema.Ownership]) := by
  refine ⟨by decide, fun _ _ => rfl, fun h => ?_, fun h => ?_⟩
  · simp [founderEntry, hasProp, addProps, h]
  · simp [founderEntry, hasProp, addProps, h]

/-- C7 witness: the skip rule and the emission shape at concrete inputs. -/
theorem C7_founders_parsing_witness :
    founderEntry "c7w" "" = [] ∧
    (founderEntry "c7w" "SRL Gama").map Rec.schema =
      [Schema.LegalEntity, Schema.Ownership] :=
  ⟨(C7_founders_parsing "c7w" "").2.2.1 (by decide),
   (C7_founders_parsing "c7w" "SRL Gama").2.2.2 (by decide)⟩

/-- C8: parse_directors splits by the close bracket comma delimiter and, per
candidate, best effort splits off the bracketed role at the last open bracket,
with no role when no bracket occurs; the spec example yields Ana Popescu with
role Director and Ion Rusu with no role. -/
theorem C8_directors_parsing (cand : String) :
    ((parse_directors "c8" (some "Ana Popescu [Director],Ion Rusu")).map
        (fun r => (r.schema, List.lookup "name" r.props, List.lookup "role" r.props)) =
      [(Schema.LegalEntity, some "Ana Popescu", none),
       (Schema.Directorship, none, some "Director"),
       (Schema.LegalEntity, some "Ion Rusu", none),
       (Schema.Directorship, none, none)]) ∧
    (∀ cid ds, parse_directors cid (some ds) =
        (splitOnSub ds "],").flatMap (directorEntry cid)) ∧
    ((∀ c ∈ cand.data, c ≠ '[') →
      directorRoleOf cand = none ∧ directorNameOf cand = pyStrip cand) := by
  refine ⟨by decide, fun _ _ => rfl, fun hni => ?_⟩
  have hr : rsplitChar '[' cand.data = none := rsplitChar_none '[' cand.data hni
  constructor
  · simp [directorRoleOf, directorSplit, hr]
  · simp [directorNameOf, directorSplit, hr]

/-- C8 witness: a roleless candidate handled by the best effort rule. -/
theorem C8_directors_parsing_witness :
    directorRoleOf "Ion Rusu" = none ∧
    directorNameOf "Ion Rusu" = pyStrip "Ion Rusu" :=
  (C8_directors_parsing "Ion Rusu").2.2 (by decide)

/-- C9: a director candidate whose stripped name is shorter than 3 characters
contributes no records at all, while one of length 3 or more contributes a
LegalEntity and a Directorship. -/
theorem C9_short_director_filter (cid cand ds : String) :
    ((directorNameOf cand).data.length < 3 → directorEntry cid cand = []) ∧
    (3 ≤ (directorNameOf cand).data.length →
      (directorEntry cid cand).map Rec.schema =
        [Schema.LegalEntity, Schema.Directorship]) ∧
    parse_directors cid (some ds) = (splitOnSub ds "],").flatMap (directorEntry cid) := by
  refine ⟨fun h => ?_, fun h => ?_, rfl⟩
  · rw [directorEntry, if_pos h]
  · rw [directorEntry, if_neg (by omega)]
    rfl

/-- C9 witness: a two character candidate is dropped, a full name is kept. -/
theorem C9_short_director_filter_witness :
    directorEntry "c9" "Io" = [] ∧
    (directorEntry "c9" "Ion Rusu").map Rec.schema =
      [Schema.LegalEntity, Schema.Directorship] :=
  ⟨(C9_short_director_filter "c9" "Io" "x").1 (by decide),
   (C9_short_director_filter "c9" "Ion Rusu" "x").2.1 (by decide)⟩

/-- C1 counterexample: with candidate dates 2025.01.15 and 2024.07.02 and
current date 2025-02-01 the selector returns the 2025.01.15 link rather than
raising: that date is only 17 days old, so the 30 day assertion passes. -/
theorem C1_example_returns_instead_of_raising :
    get_most_recent_link (days_from_civil 2025 2 1) [hrefA, hrefB] =
      Except.ok hrefA ∧
    days_from_civil 2025 2 1 - days_from_civil 2025 1 15 = 17 :=
  ⟨rfl, rfl⟩

/-- C1 (amended): when the filtered candidates yield at least one dated link,
the selector picks the chronologically maximal date; it returns that href when
the date is less than 30 days old and fails with the assertion otherwise. -/
theorem C1_most_recent_selection (now : Nat) (hrefs : List String)
    (x : DatedLink) (tl : List DatedLink)
    (hc : collect hrefs = Except.ok (x :: tl)) :
    pickMax x tl ∈ x :: tl ∧
    (∀ y ∈ x :: tl, y.day ≤ (pickMax x tl).day) ∧
    (now - 30 < (pickMax x tl).day →
      get_most_recent_link now hrefs = Except.ok (pickMax x tl).href) ∧
    ((pickMax x tl).day ≤ now - 30 →
      get_most_recent_link now hrefs =
        Except.error "AssertionError: link is not recent") := by
  refine ⟨pickMax_mem x tl, pickMax_le x tl, fun hlt => ?_, fun hge => ?_⟩
  · rw [get_most_recent_link, hc]
    simp [Except.bind, if_pos hlt]
  · rw [get_most_recent_link, hc]
    simp [Except.bind, if_neg (Nat.not_lt.mpr hge)]

/-- C1 witness: the amended statement instantiated on the example candidates;
the maximal date is within 30 days, so the link is returned. -/
theorem C1_most_recent_selection_witness :
    get_most_recent_link (days_from_civil 2025 2 1) [hrefA, hrefB] =
      Except.ok (pickMax ⟨days_from_civil 2025 1 15, hrefA⟩
        [⟨days_from_civil 2024 7 2, hrefB⟩]).href :=
  (C1_most_recent_selection (days_from_civil 2025 2 1) [hrefA, hrefB]
      ⟨days_from_civil 2025 1 15, hrefA⟩ [⟨days_from_civil 2024 7 2, hrefB⟩]
      (by rfl)).2.2.1 (by decide)

theorem get_most_recent_link_ok (now : Nat) (hrefs : List String) (href : String)
    (hok : get_most_recent_link now hrefs = Except.ok href) :
    ∃ x tl, collect hrefs = Except.ok (x :: tl) ∧ href = (pickMax x tl).href := by
  rw [get_most_recent_link] at hok
  rcases hcol : collect hrefs with e | dated
  · rw [hcol] at hok
    exact Except.noConfusion hok
  · rw [hcol] at hok
    simp only [Except.bind] at hok
    rcases dated with _ | ⟨x, tl⟩
    · exact Except.noConfusion hok
    · dsimp only at hok
      refine ⟨x, tl, rfl, ?_⟩
      by_cases hlt : now - 30 < (pickMax x tl).day
      · rw [if_pos hlt] at hok
        exact (Except.ok.inj hok).symm
      · rw [if_neg hlt] at hok
        exact Except.noConfusion hok

/-- C5: whatever href the recency selector returns, it contains neither the
stale literal marker nor the 2019 dated path pattern, even when the embedded
date would be maximal: such candidates are filtered before selection. -/
theorem C5_stale_links_never_selected (now : Nat) (hrefs : List String)
    (href : String)
    (hok : get_most_recent_link now hrefs = Except.ok href) :
    strContains href "17.06.2024" = false ∧ matches2019 href.data = false := by
  obtain ⟨x, tl, hcol, rfl⟩ := get_most_recent_link_ok now hrefs href hok
  have hns := collect_no_stale hrefs (x :: tl) hcol (pickMax x tl) (pickMax_mem x tl)
  simp only [isStale, Bool.or_eq_false_iff] at hns
  exact hns

/-- C5 witness: the property instantiated on the concrete selection. -/
theorem C5_stale_links_never_selected_witness :
    strContains hrefA "17.06.2024" = false ∧ matches2019 hrefA.data = false :=
  C5_stale_links_never_selected (days_from_civil 2025 2 1) [hrefA, hrefB] hrefA
    (by rfl)

theorem lastResourceUrl_append (base : String) (front : List (Option String))
    (a : Option String) :
    lastResourceUrl base (front ++ [a]) = some (urljoin base (a.getD "")) := by
  simp [lastResourceUrl, List.foldl_append]

/-- C6 counterexample: with two resource item anchors on the catalog page the
locator does not fail and resolves the last anchor: the returned data URL is
the one reachable from the second resource page, while the page of the first
anchor holds a different link. -/
theorem C6_last_anchor_example :
    read_ckan (some "https://cat.example/page")
      [some "https://two.example/r1", some "https://two.example/r2"] pagesC6 =
      Except.ok (some "https://two.example/data.xlsx") ∧
    pagesC6 "https://two.example/r1" = [some "https://two.example/other"] :=
  ⟨rfl, rfl⟩

/-- C6 (amended): the locator fails fatally without a dataset url or without
any resource anchor; with anchors it resolves the last one against the
catalog url, then returns the href attribute of the first action anchor of
the fetched resource page, failing fatally when that page has none. -/
theorem C6_read_ckan_contract (base : String) (anchors front : List (Option String))
    (a : Option String) (pages : String → List (Option String)) :
    (read_ckan none anchors pages = Except.error "RuntimeError: No dataset url") ∧
    (read_ckan (some base) [] pages =
      Except.error "RuntimeError: No resource URL on data catalog page!") ∧
    (anchors = front ++ [a] →
      (pages (urljoin base (a.getD "")) = [] →
        read_ckan (some base) anchors pages =
          Except.error "RuntimeError: No data URL on data resource page!") ∧
      (∀ h t, pages (urljoin base (a.getD "")) = h :: t →
        read_ckan (some base) anchors pages = Except.ok h)) := by
  refine ⟨rfl, rfl, fun ha => ⟨fun hp => ?_, fun h t hp => ?_⟩⟩
  · subst ha
    simp [read_ckan, lastResourceUrl_append, hp]
  · subst ha
    simp [read_ckan, lastResourceUrl_append, hp]

/-- C6 witness: the contract instantiated on a single anchor catalog page. -/
theorem C6_read_ckan_contract_witness :
    read_ckan (some "https://c.example/cat") [some "https://r.example/res"] pagesW =
      Except.ok (some "https://d.example/data.xlsx") :=
  ((C6_read_ckan_contract "https://c.example/cat" [some "https://r.example/res"]
      [] (some "https://r.example/res") pagesW).2.2 (by rfl)).2
    (some "https://d.example/data.xlsx") [] (by rfl)
